import Mathlib

/-!
Verification development for a Wi-Fi Direct (P2P) actor-style facade.

The embedding below translates the repository's Rust sources:
  - src/device.rs   : the `P2pDevice` record;
  - src/error.rs    : the `P2pError` taxonomy (collaborator errors carried
                      as their display strings);
  - src/channel.rs  : the `P2pEvent` enum and the `WifiP2pChannel` intent
                      methods over a command queue;
  - src/manager.rs  : the `ManagerCommand` enum and the `run_manager`
                      actor loop, modelled as a trace of observable
                      actions (backend invocation, broadcast, result-slot
                      resolution);
  - src/backend/linux.rs : interface-name validation in
                      `P2pBackendImpl::new` and option construction in
                      `P2pBackendImpl::connect`, with the D-Bus proxy
                      calls abstracted as oracles.

The backend trait (`src/backend/mod.rs`) is a set of four fallible
asynchronous operations; it is modelled as a record of functions from an
invocation sequence number to an outcome, so that scripted backends may
succeed or fail differently on each call.  One-shot result slots are
identified by natural-number slot ids; resolving a slot is an explicit
trace action.
-/

namespace WifiP2p

/-- Embedding of `P2pDevice` from src/device.rs. -/
structure P2pDevice where
  mac_address : String
  device_name : Option String
  primary_type : Option String
deriving DecidableEq

/-- Embedding of `P2pError` from src/error.rs.  The `zbus::Error` and
`zbus::zvariant::Error` payloads of the first two variants are carried as
their display strings. -/
inductive P2pError where
  | DBus (msg : String)
  | ZVariant (msg : String)
  | ChannelClosed (endpoint : String)
  | InvalidInterface (name : String)
  | Backend (msg : String)
deriving DecidableEq

/-- Embedding of `P2pEvent` from src/channel.rs. -/
inductive P2pEvent where
  | DiscoveryStarted
  | DiscoveryStopped
  | GroupCreated
  | Connected (addr : String)
  | PeerFound (device : P2pDevice)
deriving DecidableEq

/-- Embedding of `ManagerCommand` from src/manager.rs.  The
`oneshot::Sender` result slot of each variant is modelled by a
natural-number slot id. -/
inductive ManagerCommand where
  | Discover (respond_to : Nat)
  | StopDiscovery (respond_to : Nat)
  | Connect (device_address : String) (respond_to : Nat)
  | CreateGroup (respond_to : Nat)
deriving DecidableEq

/-- The endpoint string used by `WifiP2pChannel::send_command` when the
command channel is closed (src/channel.rs line 81). -/
def managerEndpoint : String := "manager"

/-- `Result::is_ok` on an operation outcome. -/
def is_ok : Except P2pError Unit → Bool
  | Except.ok _ => true
  | Except.error _ => false

/-- Embedding of the `P2pBackend` trait from src/backend/mod.rs: four
fallible operations.  Each takes the invocation sequence number, so a
scripted backend can return a different outcome on each call. -/
structure P2pBackend where
  discover_peers : Nat → Except P2pError Unit
  stop_discovery : Nat → Except P2pError Unit
  connect : Nat → String → Except P2pError Unit
  create_group : Nat → Except P2pError Unit

deriving instance DecidableEq for Except

/-- The four operations of the remote-operation port, with their
payloads, as observed by the backend. -/
inductive PortOp where
  | discover_peers
  | stop_discovery
  | connect (device_address : String)
  | create_group
deriving DecidableEq

/-- One observable action of the actor loop, in program order:
`invoke op outcome` is an awaited backend call together with the outcome
it completed with, `broadcast e` is `event_tx.send(e)`, and
`resolve slot r` is `respond_to.send(r)` on the one-shot slot `slot`. -/
inductive Action where
  | invoke (op : PortOp) (outcome : Except P2pError Unit)
  | broadcast (e : P2pEvent)
  | resolve (slot : Nat) (r : Except P2pError Unit)
deriving DecidableEq

/-- The body of the `match command` in `run_manager`
(src/manager.rs lines 70-103), as the trace of actions one dequeued
command produces: await the matching backend operation, broadcast the
matching event when and only when the outcome is ok, then send the
outcome to the command's result slot.  `n` is the invocation sequence
number of this command. -/
def handleCommand (backend : P2pBackend) (n : Nat) : ManagerCommand → List Action
  | ManagerCommand.Discover respond_to =>
      Action.invoke PortOp.discover_peers (backend.discover_peers n) ::
        ((if is_ok (backend.discover_peers n) then
            [Action.broadcast P2pEvent.DiscoveryStarted] else []) ++
          [Action.resolve respond_to (backend.discover_peers n)])
  | ManagerCommand.StopDiscovery respond_to =>
      Action.invoke PortOp.stop_discovery (backend.stop_discovery n) ::
        ((if is_ok (backend.stop_discovery n) then
            [Action.broadcast P2pEvent.DiscoveryStopped] else []) ++
          [Action.resolve respond_to (backend.stop_discovery n)])
  | ManagerCommand.Connect device_address respond_to =>
      Action.invoke (PortOp.connect device_address) (backend.connect n device_address) ::
        ((if is_ok (backend.connect n device_address) then
            [Action.broadcast (P2pEvent.Connected device_address)] else []) ++
          [Action.resolve respond_to (backend.connect n device_address)])
  | ManagerCommand.CreateGroup respond_to =>
      Action.invoke PortOp.create_group (backend.create_group n) ::
        ((if is_ok (backend.create_group n) then
            [Action.broadcast P2pEvent.GroupCreated] else []) ++
          [Action.resolve respond_to (backend.create_group n)])

/-- The `while let Some(command) = command_rx.recv().await` loop of
`run_manager` (src/manager.rs lines 69-104), starting at invocation
sequence number `n`: the commands drained from the queue are processed
strictly one at a time, in order, and the loop ends when the list (the
closed, drained queue) is exhausted. -/
def runManagerFrom (backend : P2pBackend) (n : Nat) : List ManagerCommand → List Action
  | [] => []
  | command :: rest => handleCommand backend n command ++ runManagerFrom backend (n + 1) rest

/-- Embedding of `run_manager` (src/manager.rs lines 62-105): the full
program-order trace of the actor loop over the sequence of commands it
dequeues. -/
def run_manager (backend : P2pBackend) (commands : List ManagerCommand) : List Action :=
  runManagerFrom backend 0 commands

/-- The events broadcast in a trace, in order. -/
def eventsOf (tr : List Action) : List P2pEvent :=
  tr.filterMap fun a => match a with
    | Action.broadcast e => some e
    | _ => none

/-- The backend invocations in a trace, in order. -/
def invocationsOf (tr : List Action) : List PortOp :=
  tr.filterMap fun a => match a with
    | Action.invoke op _ => some op
    | _ => none

/-- All result-slot resolutions in a trace, in order, as pairs of the
slot id and the delivered outcome. -/
def resolutionsOf (tr : List Action) : List (Nat × Except P2pError Unit) :=
  tr.filterMap fun a => match a with
    | Action.resolve slot r => some (slot, r)
    | _ => none

/-- The outcomes delivered to one particular slot in a trace. -/
def resolutionsTo (slot : Nat) (tr : List Action) : List (Except P2pError Unit) :=
  tr.filterMap fun a => match a with
    | Action.resolve s r => if s = slot then some r else none
    | _ => none

/-- The remote-operation-port method a command maps to, with its
payload. -/
def commandOp : ManagerCommand → PortOp
  | ManagerCommand.Discover _ => PortOp.discover_peers
  | ManagerCommand.StopDiscovery _ => PortOp.stop_discovery
  | ManagerCommand.Connect device_address _ => PortOp.connect device_address
  | ManagerCommand.CreateGroup _ => PortOp.create_group

/-- The result-slot id a command carries. -/
def commandSlot : ManagerCommand → Nat
  | ManagerCommand.Discover respond_to => respond_to
  | ManagerCommand.StopDiscovery respond_to => respond_to
  | ManagerCommand.Connect _ respond_to => respond_to
  | ManagerCommand.CreateGroup respond_to => respond_to

/-- The 1:1 command-to-event correspondence named by the specification:
Discover to DiscoveryStarted, StopDiscovery to DiscoveryStopped,
Connect(addr) to Connected(addr), CreateGroup to GroupCreated. -/
def eventFor : ManagerCommand → P2pEvent
  | ManagerCommand.Discover _ => P2pEvent.DiscoveryStarted
  | ManagerCommand.StopDiscovery _ => P2pEvent.DiscoveryStopped
  | ManagerCommand.Connect device_address _ => P2pEvent.Connected device_address
  | ManagerCommand.CreateGroup _ => P2pEvent.GroupCreated

/-- The outcome the backend returns for a command at invocation sequence
number `n`. -/
def backendResult (backend : P2pBackend) (n : Nat) : ManagerCommand → Except P2pError Unit
  | ManagerCommand.Discover _ => backend.discover_peers n
  | ManagerCommand.StopDiscovery _ => backend.stop_discovery n
  | ManagerCommand.Connect device_address _ => backend.connect n device_address
  | ManagerCommand.CreateGroup _ => backend.create_group n

/-- Spec-side definition, following the specification's words: for each
command in order, publish exactly the single corresponding event when the
outcome is success, and nothing when it fails. -/
def specEventsFrom (backend : P2pBackend) (n : Nat) : List ManagerCommand → List P2pEvent
  | [] => []
  | command :: rest =>
      (if is_ok (backendResult backend n command) then [eventFor command] else []) ++
        specEventsFrom backend (n + 1) rest

/-- Spec-side definition, following the specification's words: each
command's own result slot receives exactly one outcome, the one the
remote operation produced, in processing order. -/
def specResolutionsFrom (backend : P2pBackend) (n : Nat) :
    List ManagerCommand → List (Nat × Except P2pError Unit)
  | [] => []
  | command :: rest =>
      (commandSlot command, backendResult backend n command) ::
        specResolutionsFrom backend (n + 1) rest

/-- The client-facing state a `WifiP2pChannel` (src/channel.rs) interacts
with: whether the actor (the sole consumer of the command queue) is still
alive so `command_tx.send` can succeed, the commands enqueued so far in
FIFO order, and the next unused one-shot slot id (`oneshot::channel()`
always hands out a slot never used before; the counter models that
freshness). -/
structure ChannelSt where
  queueOpen : Bool
  queued : List ManagerCommand
  nextSlot : Nat
deriving DecidableEq

namespace WifiP2pChannel

/-- Embedding of `WifiP2pChannel::send_command` (src/channel.rs lines
76-82): enqueue the command, or convert a send on a closed queue into the
typed `ChannelClosed("manager")` error, leaving the queue untouched. -/
def send_command (st : ChannelSt) (command : ManagerCommand) :
    Except P2pError Unit × ChannelSt :=
  if st.queueOpen then
    (Except.ok (), { st with queued := st.queued ++ [command] })
  else
    (Except.error (P2pError.ChannelClosed managerEndpoint), st)

/-- Embedding of `WifiP2pChannel::discover_peers` (src/channel.rs lines
42-47): create a fresh one-shot slot, enqueue `Discover` carrying its
sending half, and return the receiving half (the slot id) immediately. -/
def discover_peers (st : ChannelSt) : Except P2pError Nat × ChannelSt :=
  let respond_to := st.nextSlot
  let st1 := { st with nextSlot := st.nextSlot + 1 }
  match send_command st1 (ManagerCommand.Discover respond_to) with
  | (Except.ok _, st2) => (Except.ok respond_to, st2)
  | (Except.error e, st2) => (Except.error e, st2)

/-- Embedding of `WifiP2pChannel::stop_discovery` (src/channel.rs lines
49-55). -/
def stop_discovery (st : ChannelSt) : Except P2pError Nat × ChannelSt :=
  let respond_to := st.nextSlot
  let st1 := { st with nextSlot := st.nextSlot + 1 }
  match send_command st1 (ManagerCommand.StopDiscovery respond_to) with
  | (Except.ok _, st2) => (Except.ok respond_to, st2)
  | (Except.error e, st2) => (Except.error e, st2)

/-- Embedding of `WifiP2pChannel::connect` (src/channel.rs lines 57-66). -/
def connect (st : ChannelSt) (device_address : String) :
    Except P2pError Nat × ChannelSt :=
  let respond_to := st.nextSlot
  let st1 := { st with nextSlot := st.nextSlot + 1 }
  match send_command st1 (ManagerCommand.Connect device_address respond_to) with
  | (Except.ok _, st2) => (Except.ok respond_to, st2)
  | (Except.error e, st2) => (Except.error e, st2)

/-- Embedding of `WifiP2pChannel::create_group` (src/channel.rs lines
68-74). -/
def create_group (st : ChannelSt) : Except P2pError Nat × ChannelSt :=
  let respond_to := st.nextSlot
  let st1 := { st with nextSlot := st.nextSlot + 1 }
  match send_command st1 (ManagerCommand.CreateGroup respond_to) with
  | (Except.ok _, st2) => (Except.ok respond_to, st2)
  | (Except.error e, st2) => (Except.error e, st2)

end WifiP2pChannel

/-- Awaiting a one-shot receiver, per tokio semantics: a slot that was
resolved yields its value; a slot whose sending half was dropped without
a send yields a channel-closed condition. -/
inductive RecvOutcome where
  | value (r : Except P2pError Unit)
  | closed
deriving DecidableEq

/-- Awaiting the receiving half of a result slot given the value, if any,
that was sent into it. -/
def awaitSlot : Option (Except P2pError Unit) → RecvOutcome
  | some r => RecvOutcome.value r
  | none => RecvOutcome.closed

/-- The first (and, as proved below, only) outcome a trace delivers to a
slot, if any. -/
def slotValueIn (tr : List Action) (slot : Nat) : Option (Except P2pError Unit) :=
  (resolutionsTo slot tr).head?

/-- The capacity `WifiP2pManager::initialize` passes to `mpsc::channel`
(src/manager.rs line 30). -/
def commandQueueCapacity : Nat := 32

/-- The capacity `WifiP2pManager::initialize` passes to
`broadcast::channel` (src/manager.rs line 31). -/
def eventTopicCapacity : Nat := 64

/-- The buffered contents of the bounded command queue, front first. -/
structure BoundedQueue where
  items : List ManagerCommand
deriving DecidableEq

/-- The outcome of one attempt by `mpsc::Sender::send` to hand its
command to the queue: either the command is appended at the back, or the
queue is full and the caller suspends, keeping the command, until space
frees. -/
inductive SendOutcome where
  | enqueued (q : BoundedQueue)
  | suspended
deriving DecidableEq

/-- One attempt of a bounded `mpsc` send, per tokio semantics: append at
the back when below capacity, otherwise suspend (never drop, never
reorder). -/
def mpscSend (q : BoundedQueue) (command : ManagerCommand) : SendOutcome :=
  if q.items.length < commandQueueCapacity then
    SendOutcome.enqueued (BoundedQueue.mk (q.items ++ [command]))
  else
    SendOutcome.suspended

/-- `mpsc::Receiver::recv` on a non-empty queue pops the front element;
on an empty queue it yields nothing (the consumer suspends or, with all
producers gone, the loop ends). -/
def mpscRecv (q : BoundedQueue) : Option ManagerCommand × BoundedQueue :=
  match q.items with
  | [] => (none, q)
  | front :: rest => (some front, BoundedQueue.mk rest)

/-- Option key "peer" of the `Connect` D-Bus call
(src/backend/linux.rs line 95). -/
def peerKey : String := "peer"

/-- Option key "wps_method" of the `Connect` D-Bus call
(src/backend/linux.rs line 96). -/
def wpsMethodKey : String := "wps_method"

/-- Option value "pbc" of the `Connect` D-Bus call
(src/backend/linux.rs line 94). -/
def pbcValue : String := "pbc"

/-- The result of `P2pBackendImpl::new`: the outcome (on success, the
resolved interface object path), together with how many remote calls
were attempted while constructing it. -/
structure NewOutcome where
  result : Except P2pError String
  remote_calls : Nat
deriving DecidableEq

/-- Rendering of the guard `interface_name.trim().is_empty()`
(src/backend/linux.rs line 25): the trimmed string is empty exactly when
every character of the string is whitespace (vacuously so for the empty
string); rendered without `String.trim` so that it evaluates by kernel
reduction. -/
def trim_is_empty (s : String) : Bool :=
  s.toList.all Char.isWhitespace

/-- Embedding of `P2pBackendImpl::new` (src/backend/linux.rs lines
24-33): reject an interface name that is empty after trimming with
`InvalidInterface` carrying the original string, before any remote call;
otherwise resolve the interface object path through the
`get_interface_path` remote call, abstracted as an oracle. -/
def P2pBackendImplNew (get_interface_path : String → Except P2pError String)
    (interface_name : String) : NewOutcome :=
  if trim_is_empty interface_name then
    NewOutcome.mk (Except.error (P2pError.InvalidInterface interface_name)) 0
  else
    NewOutcome.mk (get_interface_path interface_name) 1

/-- Embedding of `P2pBackendImpl::connect` (src/backend/linux.rs lines
87-100): build the options map with the peer address and the WPS method
and perform the remote `Connect` call, abstracted as an oracle over the
option list.  The device address is forwarded as given: the function
performs no validation of its own. -/
def backendImplConnect (callConnect : List (String × String) → Except P2pError Unit)
    (device_address : String) : Except P2pError Unit :=
  callConnect [(peerKey, device_address), (wpsMethodKey, pbcValue)]

/-- Embedding of the `WifiP2pManager` state (src/manager.rs lines 10-13)
that `initialize` reads: the shared backend behind the `Arc`.  The D-Bus
connection handle plays no part in the actor core. -/
structure WifiP2pManager where
  backend : P2pBackend

/-- One command/event actor instance as produced by one call of
`WifiP2pManager::initialize` (src/manager.rs lines 27-38): a fresh
`mpsc` queue and a fresh `broadcast` topic, both identified by the fresh
allocation id `fresh`, and the one shared backend.  Distinct
`initialize` calls receive distinct allocation ids. -/
structure ActorInstance where
  backend : P2pBackend
  queueId : Nat
  topicId : Nat

/-- The instance one call of `WifiP2pManager::initialize` constructs,
given the fresh allocation id of the channels it creates. -/
def makeChannel (mgr : WifiP2pManager) (fresh : Nat) : ActorInstance :=
  ActorInstance.mk mgr.backend fresh fresh

/-- The events an instance's actor publishes on a given topic: its own
topic carries the events of its run; any other topic receives nothing
from it. -/
def publishedOn (inst : ActorInstance) (commands : List ManagerCommand)
    (topic : Nat) : List P2pEvent :=
  if inst.topicId = topic then eventsOf (run_manager inst.backend commands) else []

/-- The backend invocations an instance's actor performs on behalf of a
given queue: only its own queue's commands are executed by it. -/
def executedOn (inst : ActorInstance) (commands : List ManagerCommand)
    (queue : Nat) : List PortOp :=
  if inst.queueId = queue then invocationsOf (run_manager inst.backend commands) else []

/-- A scripted backend whose four operations always succeed. -/
def okBackend : P2pBackend :=
  P2pBackend.mk (fun _ => Except.ok ()) (fun _ => Except.ok ())
    (fun _ _ => Except.ok ()) (fun _ => Except.ok ())

/-- A remote `Connect` oracle that always succeeds, for exercising
`backendImplConnect` on concrete inputs. -/
def connectOkOracle : List (String × String) → Except P2pError Unit :=
  fun _ => Except.ok ()

/-- An interface-path oracle that always succeeds, for exercising
`P2pBackendImplNew` on concrete inputs. -/
def pathOkOracle : String → Except P2pError String :=
  fun name => Except.ok name

/-- The empty string, used as a concrete empty peer address and empty
interface name. -/
def emptyName : String := ""

/-- A trace with no overlapping command processing: each backend
invocation is followed, before any further invocation, by zero or more
broadcasts and then by the resolution of a result slot. -/
inductive Serialized : List Action → Prop where
  | nil : Serialized []
  | step (op : PortOp) (out : Except P2pError Unit) (mid : List Action)
      (slot : Nat) (r : Except P2pError Unit) (rest : List Action) :
      (∀ a ∈ mid, ∃ e, a = Action.broadcast e) → Serialized rest →
      Serialized (Action.invoke op out :: mid ++ Action.resolve slot r :: rest)

/-- Whether an action is a broadcast. -/
def isBroadcastA : Action → Bool
  | Action.broadcast _ => true
  | _ => false

/-- Whether an action is a result-slot resolution. -/
def isResolveA : Action → Bool
  | Action.resolve _ _ => true
  | _ => false

/-- The ordering the specification asserts for one command's processing
step: the broadcast does not come before the result-slot resolution in
the actor's program order (it is after it, or, the nearest meaning of
simultaneity a sequential trace admits, at the same position). -/
def broadcastNotBeforeResolve (tr : List Action) : Prop :=
  ∀ b r, tr.findIdx? isBroadcastA = some b → tr.findIdx? isResolveA = some r → r ≤ b

/-- A command queue holding exactly `commandQueueCapacity` commands. -/
def fullQueue : BoundedQueue :=
  BoundedQueue.mk (List.replicate commandQueueCapacity (ManagerCommand.CreateGroup 0))

/-- A concrete channel state whose actor is gone (queue closed). -/
def closedStChannel : ChannelSt := ChannelSt.mk false [] 0

/-- A concrete channel state whose actor is alive (queue open). -/
def openStChannel : ChannelSt := ChannelSt.mk true [] 0

/-- A concrete manager over the always-succeeding backend. -/
def okManager : WifiP2pManager := WifiP2pManager.mk okBackend

@[simp]
theorem eventsOf_nil : eventsOf [] = [] := rfl

@[simp]
theorem eventsOf_invoke_cons (op : PortOp) (out : Except P2pError Unit)
    (tr : List Action) : eventsOf (Action.invoke op out :: tr) = eventsOf tr := rfl

@[simp]
theorem eventsOf_broadcast_cons (e : P2pEvent) (tr : List Action) :
    eventsOf (Action.broadcast e :: tr) = e :: eventsOf tr := rfl

@[simp]
theorem eventsOf_resolve_cons (slot : Nat) (r : Except P2pError Unit)
    (tr : List Action) : eventsOf (Action.resolve slot r :: tr) = eventsOf tr := rfl

@[simp]
theorem eventsOf_append (t1 t2 : List Action) :
    eventsOf (t1 ++ t2) = eventsOf t1 ++ eventsOf t2 := by
  simp [eventsOf]

@[simp]
theorem invocationsOf_nil : invocationsOf [] = [] := rfl

@[simp]
theorem invocationsOf_invoke_cons (op : PortOp) (out : Except P2pError Unit)
    (tr : List Action) :
    invocationsOf (Action.invoke op out :: tr) = op :: invocationsOf tr := rfl

@[simp]
theorem invocationsOf_broadcast_cons (e : P2pEvent) (tr : List Action) :
    invocationsOf (Action.broadcast e :: tr) = invocationsOf tr := rfl

@[simp]
theorem invocationsOf_resolve_cons (slot : Nat) (r : Except P2pError Unit)
    (tr : List Action) :
    invocationsOf (Action.resolve slot r :: tr) = invocationsOf tr := rfl

@[simp]
theorem invocationsOf_append (t1 t2 : List Action) :
    invocationsOf (t1 ++ t2) = invocationsOf t1 ++ invocationsOf t2 := by
  simp [invocationsOf]

@[simp]
theorem resolutionsOf_nil : resolutionsOf [] = [] := rfl

@[simp]
theorem resolutionsOf_invoke_cons (op : PortOp) (out : Except P2pError Unit)
    (tr : List Action) :
    resolutionsOf (Action.invoke op out :: tr) = resolutionsOf tr := rfl

@[simp]
theorem resolutionsOf_broadcast_cons (e : P2pEvent) (tr : List Action) :
    resolutionsOf (Action.broadcast e :: tr) = resolutionsOf tr := rfl

@[simp]
theorem resolutionsOf_resolve_cons (slot : Nat) (r : Except P2pError Unit)
    (tr : List Action) :
    resolutionsOf (Action.resolve slot r :: tr) = (slot, r) :: resolutionsOf tr := rfl

@[simp]
theorem resolutionsOf_append (t1 t2 : List Action) :
    resolutionsOf (t1 ++ t2) = resolutionsOf t1 ++ resolutionsOf t2 := by
  simp [resolutionsOf]

@[simp]
theorem resolutionsTo_nil (slot : Nat) : resolutionsTo slot [] = [] := rfl

@[simp]
theorem resolutionsTo_invoke_cons (slot : Nat) (op : PortOp)
    (out : Except P2pError Unit) (tr : List Action) :
    resolutionsTo slot (Action.invoke op out :: tr) = resolutionsTo slot tr := rfl

@[simp]
theorem resolutionsTo_broadcast_cons (slot : Nat) (e : P2pEvent)
    (tr : List Action) :
    resolutionsTo slot (Action.broadcast e :: tr) = resolutionsTo slot tr := rfl

theorem resolutionsTo_resolve_cons (slot s : Nat) (r : Except P2pError Unit)
    (tr : List Action) :
    resolutionsTo slot (Action.resolve s r :: tr) =
      if s = slot then r :: resolutionsTo slot tr else resolutionsTo slot tr := by
  by_cases h : s = slot <;> simp [resolutionsTo, h]

@[simp]
theorem resolutionsTo_append (slot : Nat) (t1 t2 : List Action) :
    resolutionsTo slot (t1 ++ t2) = resolutionsTo slot t1 ++ resolutionsTo slot t2 := by
  simp [resolutionsTo]

theorem eventsOf_handleCommand (backend : P2pBackend) (n : Nat)
    (c : ManagerCommand) :
    eventsOf (handleCommand backend n c) =
      if is_ok (backendResult backend n c) then [eventFor c] else [] := by
  cases c <;> dsimp [handleCommand, backendResult, eventFor] <;> split <;> simp

theorem invocationsOf_handleCommand (backend : P2pBackend) (n : Nat)
    (c : ManagerCommand) :
    invocationsOf (handleCommand backend n c) = [commandOp c] := by
  cases c <;> dsimp [handleCommand, commandOp] <;> split <;> simp

theorem resolutionsOf_handleCommand (backend : P2pBackend) (n : Nat)
    (c : ManagerCommand) :
    resolutionsOf (handleCommand backend n c) =
      [(commandSlot c, backendResult backend n c)] := by
  cases c <;> dsimp [handleCommand, commandSlot, backendResult] <;> split <;> simp

theorem resolutionsTo_handleCommand_ne (backend : P2pBackend) (n : Nat)
    (c : ManagerCommand) (slot : Nat) (h : slot ≠ commandSlot c) :
    resolutionsTo slot (handleCommand backend n c) = [] := by
  cases c <;> dsimp [handleCommand, commandSlot] at h ⊢ <;> split <;>
    simp [resolutionsTo_resolve_cons, Ne.symm h]

theorem eventsOf_runManagerFrom (backend : P2pBackend) :
    ∀ (commands : List ManagerCommand) (n : Nat),
      eventsOf (runManagerFrom backend n commands) = specEventsFrom backend n commands := by
  intro commands
  induction commands with
  | nil => intro n; rfl
  | cons c rest ih =>
      intro n
      simp only [runManagerFrom, specEventsFrom, eventsOf_append,
        eventsOf_handleCommand, ih]

theorem invocationsOf_runManagerFrom (backend : P2pBackend) :
    ∀ (commands : List ManagerCommand) (n : Nat),
      invocationsOf (runManagerFrom backend n commands) = commands.map commandOp := by
  intro commands
  induction commands with
  | nil => intro n; rfl
  | cons c rest ih =>
      intro n
      simp only [runManagerFrom, invocationsOf_append,
        invocationsOf_handleCommand, ih, List.map_cons, List.singleton_append]

theorem resolutionsOf_runManagerFrom (backend : P2pBackend) :
    ∀ (commands : List ManagerCommand) (n : Nat),
      resolutionsOf (runManagerFrom backend n commands) =
        specResolutionsFrom backend n commands := by
  intro commands
  induction commands with
  | nil => intro n; rfl
  | cons c rest ih =>
      intro n
      simp only [runManagerFrom, specResolutionsFrom, resolutionsOf_append,
        resolutionsOf_handleCommand, ih, List.singleton_append]

theorem resolutionsTo_runManagerFrom_not_mem (backend : P2pBackend) :
    ∀ (commands : List ManagerCommand) (n slot : Nat),
      slot ∉ commands.map commandSlot →
      resolutionsTo slot (runManagerFrom backend n commands) = [] := by
  intro commands
  induction commands with
  | nil => intro n slot _; rfl
  | cons c rest ih =>
      intro n slot h
      simp only [List.map_cons, List.mem_cons, not_or] at h
      simp only [runManagerFrom, resolutionsTo_append,
        resolutionsTo_handleCommand_ne backend n c slot h.1, ih (n + 1) slot h.2,
        List.append_nil]

theorem serialized_runManagerFrom (backend : P2pBackend) :
    ∀ (commands : List ManagerCommand) (n : Nat),
      Serialized (runManagerFrom backend n commands) := by
  intro commands
  induction commands with
  | nil => intro n; exact Serialized.nil
  | cons c rest ih =>
      intro n
      have htail := ih (n + 1)
      cases c <;> dsimp [runManagerFrom, handleCommand] <;> split <;>
        simp only [List.cons_append, List.append_assoc, List.singleton_append,
          List.nil_append] <;>
        first
        | exact Serialized.step _ _ [Action.broadcast _] _ _ _
            (by intro a ha; simp only [List.mem_singleton] at ha; exact ⟨_, ha⟩) htail
        | exact Serialized.step _ _ [] _ _ _ (by intro a ha; cases ha) htail

/-- C1: for every command processed by the actor loop, a broadcast event
is published if and only if the remote-operation outcome is success, and
the published event is the single variant corresponding 1:1 to the
command variant (Discover yields DiscoveryStarted, StopDiscovery yields
DiscoveryStopped, Connect(addr) yields Connected carrying the address the
caller submitted, CreateGroup yields GroupCreated); failed commands
broadcast zero events.  The events of the loop's trace are exactly the
spec-side per-command list. -/
theorem run_manager_broadcasts_iff_success (backend : P2pBackend)
    (commands : List ManagerCommand) :
    eventsOf (run_manager backend commands) = specEventsFrom backend 0 commands :=
  eventsOf_runManagerFrom backend commands 0

/-- C2: every command the actor loop dequeues and executes has exactly
one outcome, the remote operation's own, delivered to its result slot,
never zero and never both; a command never dequeued because the actor is
no longer running has its slot left unresolved, and awaiting it yields
the channel-closed condition. -/
theorem result_slot_resolved_exactly_once (backend : P2pBackend) (n : Nat)
    (c : ManagerCommand) (done : List ManagerCommand)
    (h : commandSlot c ∉ done.map commandSlot) :
    resolutionsOf (handleCommand backend n c) =
      [(commandSlot c, backendResult backend n c)] ∧
    awaitSlot (slotValueIn (run_manager backend done) (commandSlot c)) =
      RecvOutcome.closed := by
  refine ⟨resolutionsOf_handleCommand backend n c, ?_⟩
  unfold slotValueIn run_manager
  rw [resolutionsTo_runManagerFrom_not_mem backend done 0 (commandSlot c) h]
  rfl

/-- Witness for C2 at the always-succeeding backend, a Discover command
on slot 0 and an actor that processed nothing. -/
theorem result_slot_resolved_exactly_once_witness :
    (commandSlot (ManagerCommand.Discover 0) ∉
      List.map commandSlot ([] : List ManagerCommand)) ∧
    (resolutionsOf (handleCommand okBackend 0 (ManagerCommand.Discover 0)) =
      [(commandSlot (ManagerCommand.Discover 0),
        backendResult okBackend 0 (ManagerCommand.Discover 0))] ∧
     awaitSlot (slotValueIn (run_manager okBackend [])
        (commandSlot (ManagerCommand.Discover 0))) = RecvOutcome.closed) :=
  ⟨by simp,
   result_slot_resolved_exactly_once okBackend 0 (ManagerCommand.Discover 0) []
     (by simp)⟩

/-- C3: for every sequence of commands drained from the queue, the
remote-operation port observes exactly one invocation per command, in
exactly the enqueue order, and the trace is serialized: each invocation
is followed by the resolution of its command's outcome before any
further invocation begins. -/
theorem port_invocations_in_order_without_overlap (backend : P2pBackend)
    (commands : List ManagerCommand) :
    invocationsOf (run_manager backend commands) = commands.map commandOp ∧
    Serialized (run_manager backend commands) :=
  ⟨invocationsOf_runManagerFrom backend commands 0,
   serialized_runManagerFrom backend commands 0⟩

/-- C4 counterexample: for a successful Discover at the always-ok
backend, the event broadcast occurs strictly before the result-slot
resolution in the actor's program order (the broadcast is at trace index
1, the resolution at index 2), refuting the claim that the broadcast
comes after the resolution or concurrently with it. -/
theorem broadcast_strictly_before_resolution :
    ¬ broadcastNotBeforeResolve (handleCommand okBackend 0 (ManagerCommand.Discover 0)) := by
  intro h
  have h2 := h 1 2 (by decide) (by decide)
  exact absurd h2 (by decide)

/-- C4 (amended): for every successful command, the step trace is
exactly the awaited backend invocation, then the broadcast of the
matching event, then the result-slot resolution: the event is broadcast
after the remote operation completed and immediately before (not after)
the result slot is resolved, with no suspension point between them. -/
theorem successful_step_trace (backend : P2pBackend) (n : Nat)
    (c : ManagerCommand) (h : is_ok (backendResult backend n c) = true) :
    handleCommand backend n c =
      [Action.invoke (commandOp c) (backendResult backend n c),
       Action.broadcast (eventFor c),
       Action.resolve (commandSlot c) (backendResult backend n c)] := by
  cases c <;>
    dsimp [handleCommand, backendResult, commandOp, eventFor, commandSlot] at h ⊢ <;>
    rw [if_pos h] <;> rfl

/-- Witness for the amended C4 at the always-succeeding backend and a
Discover command on slot 0. -/
theorem successful_step_trace_witness :
    is_ok (backendResult okBackend 0 (ManagerCommand.Discover 0)) = true ∧
    handleCommand okBackend 0 (ManagerCommand.Discover 0) =
      [Action.invoke (commandOp (ManagerCommand.Discover 0))
        (backendResult okBackend 0 (ManagerCommand.Discover 0)),
       Action.broadcast (eventFor (ManagerCommand.Discover 0)),
       Action.resolve (commandSlot (ManagerCommand.Discover 0))
        (backendResult okBackend 0 (ManagerCommand.Discover 0))] :=
  ⟨by decide,
   successful_step_trace okBackend 0 (ManagerCommand.Discover 0) (by decide)⟩

/-- C5: a failed remote operation is not fatal to the actor loop: every
drained command, including every one following a failure, has its own
outcome (success or failure) delivered to its own slot and its own
backend invocation performed, and the loop's run over the drained queue
ends gracefully, producing the empty trace exactly on the empty (closed
and drained) queue. -/
theorem loop_survives_failures_and_drains (backend : P2pBackend)
    (commands : List ManagerCommand) :
    resolutionsOf (run_manager backend commands) =
      specResolutionsFrom backend 0 commands ∧
    invocationsOf (run_manager backend commands) = commands.map commandOp ∧
    run_manager backend [] = [] :=
  ⟨resolutionsOf_runManagerFrom backend commands 0,
   invocationsOf_runManagerFrom backend commands 0, rfl⟩

/-- C6: every channel-handle intent method constructs a command carrying
a fresh one-shot result slot (the next unused slot id); if the command
queue is permanently closed the method fails with the channel-closed
error, and otherwise it returns the receiving half of the slot
immediately, with the command enqueued at the back of the queue. -/
theorem intent_methods_fresh_slot_and_closed_error (st : ChannelSt)
    (device_address : String) :
    WifiP2pChannel.discover_peers st =
      (if st.queueOpen then
        (Except.ok st.nextSlot,
         ChannelSt.mk st.queueOpen
           (st.queued ++ [ManagerCommand.Discover st.nextSlot]) (st.nextSlot + 1))
       else
        (Except.error (P2pError.ChannelClosed managerEndpoint),
         ChannelSt.mk st.queueOpen st.queued (st.nextSlot + 1))) ∧
    WifiP2pChannel.stop_discovery st =
      (if st.queueOpen then
        (Except.ok st.nextSlot,
         ChannelSt.mk st.queueOpen
           (st.queued ++ [ManagerCommand.StopDiscovery st.nextSlot]) (st.nextSlot + 1))
       else
        (Except.error (P2pError.ChannelClosed managerEndpoint),
         ChannelSt.mk st.queueOpen st.queued (st.nextSlot + 1))) ∧
    WifiP2pChannel.connect st device_address =
      (if st.queueOpen then
        (Except.ok st.nextSlot,
         ChannelSt.mk st.queueOpen
           (st.queued ++ [ManagerCommand.Connect device_address st.nextSlot])
           (st.nextSlot + 1))
       else
        (Except.error (P2pError.ChannelClosed managerEndpoint),
         ChannelSt.mk st.queueOpen st.queued (st.nextSlot + 1))) ∧
    WifiP2pChannel.create_group st =
      (if st.queueOpen then
        (Except.ok st.nextSlot,
         ChannelSt.mk st.queueOpen
           (st.queued ++ [ManagerCommand.CreateGroup st.nextSlot]) (st.nextSlot + 1))
       else
        (Except.error (P2pError.ChannelClosed managerEndpoint),
         ChannelSt.mk st.queueOpen st.queued (st.nextSlot + 1))) := by
  rcases st with ⟨qo, qd, ns⟩
  cases qo <;>
    simp [WifiP2pChannel.discover_peers, WifiP2pChannel.stop_discovery,
      WifiP2pChannel.connect, WifiP2pChannel.create_group,
      WifiP2pChannel.send_command]

/-- C7: the command queue is a bounded FIFO of fixed capacity 32 (tens
of entries): a send below capacity appends at the back, preserving the
existing order; a send on a full queue suspends, and once the consumer
pops the front (space frees) the retried send succeeds, still appending
at the back, so no command is ever dropped or reordered. -/
theorem command_queue_bounded_fifo (q : BoundedQueue) (command : ManagerCommand)
    (h : q.items.length = commandQueueCapacity) :
    commandQueueCapacity = 32 ∧
    10 ≤ commandQueueCapacity ∧ commandQueueCapacity ≤ 99 ∧
    mpscSend q command = SendOutcome.suspended ∧
    (∀ (q2 : BoundedQueue) (c2 : ManagerCommand),
       q2.items.length < commandQueueCapacity →
       mpscSend q2 c2 = SendOutcome.enqueued (BoundedQueue.mk (q2.items ++ [c2]))) ∧
    (∀ (front : ManagerCommand) (rest : List ManagerCommand),
       mpscRecv (BoundedQueue.mk (front :: rest)) = (some front, BoundedQueue.mk rest)) ∧
    mpscSend (mpscRecv q).2 command =
      SendOutcome.enqueued (BoundedQueue.mk ((mpscRecv q).2.items ++ [command])) := by
  rcases q with ⟨items⟩
  refine ⟨rfl, by norm_num [commandQueueCapacity], by norm_num [commandQueueCapacity],
    by simp [mpscSend, h], ?_, fun front rest => rfl, ?_⟩
  · intro q2 c2 h2
    simp [mpscSend, h2]
  · cases items with
    | nil => simp [commandQueueCapacity] at h
    | cons front rest =>
        simp only [List.length_cons, commandQueueCapacity] at h
        simp [mpscRecv, mpscSend, commandQueueCapacity]
        omega

/-- Witness for C7 at a queue holding exactly 32 commands. -/
theorem command_queue_bounded_fifo_witness :
    fullQueue.items.length = commandQueueCapacity ∧
    (commandQueueCapacity = 32 ∧
     10 ≤ commandQueueCapacity ∧ commandQueueCapacity ≤ 99 ∧
     mpscSend fullQueue (ManagerCommand.Discover 0) = SendOutcome.suspended ∧
     (∀ (q2 : BoundedQueue) (c2 : ManagerCommand),
        q2.items.length < commandQueueCapacity →
        mpscSend q2 c2 = SendOutcome.enqueued (BoundedQueue.mk (q2.items ++ [c2]))) ∧
     (∀ (front : ManagerCommand) (rest : List ManagerCommand),
        mpscRecv (BoundedQueue.mk (front :: rest)) = (some front, BoundedQueue.mk rest)) ∧
     mpscSend (mpscRecv fullQueue).2 (ManagerCommand.Discover 0) =
       SendOutcome.enqueued
         (BoundedQueue.mk ((mpscRecv fullQueue).2.items ++ [ManagerCommand.Discover 0]))) :=
  ⟨by simp [fullQueue],
   command_queue_bounded_fifo fullQueue (ManagerCommand.Discover 0) (by simp [fullQueue])⟩

/-- C8 counterexample: with a remote Connect oracle that succeeds,
`P2pBackendImpl::connect` applied to the empty peer address returns
success: the empty address is not rejected with the invalid-input
failure, because connect performs no address validation at all. -/
theorem connect_empty_address_not_rejected :
    backendImplConnect connectOkOracle emptyName = Except.ok () ∧
    backendImplConnect connectOkOracle emptyName ≠
      Except.error (P2pError.InvalidInterface emptyName) := by
  constructor
  · rfl
  · intro h
    exact Except.noConfusion h

/-- C8 (amended): constructing the backend with an interface name that
is empty or whitespace-only after trimming fails with InvalidInterface
carrying the original string and attempts no remote call; connect,
however, performs no validation of the peer address: any address,
including the empty one, is forwarded unchanged in the options of the
remote Connect call. -/
theorem invalid_interface_rejected_connect_unvalidated
    (get_interface_path : String → Except P2pError String) (interface_name : String)
    (h : trim_is_empty interface_name = true) :
    P2pBackendImplNew get_interface_path interface_name =
      NewOutcome.mk (Except.error (P2pError.InvalidInterface interface_name)) 0 ∧
    (∀ (callConnect : List (String × String) → Except P2pError Unit)
       (device_address : String),
       backendImplConnect callConnect device_address =
         callConnect [(peerKey, device_address), (wpsMethodKey, pbcValue)]) :=
  ⟨by simp [P2pBackendImplNew, h], fun _ _ => rfl⟩

/-- Witness for the amended C8 at the empty interface name and the
always-succeeding path oracle. -/
theorem invalid_interface_rejected_connect_unvalidated_witness :
    (trim_is_empty emptyName = true) ∧
    (P2pBackendImplNew pathOkOracle emptyName =
      NewOutcome.mk (Except.error (P2pError.InvalidInterface emptyName)) 0 ∧
     (∀ (callConnect : List (String × String) → Except P2pError Unit)
        (device_address : String),
        backendImplConnect callConnect device_address =
          callConnect [(peerKey, device_address), (wpsMethodKey, pbcValue)])) :=
  ⟨by decide, invalid_interface_rejected_connect_unvalidated pathOkOracle emptyName (by decide)⟩

/-- C9: a submission failing because the actor's queue is closed returns
exactly ChannelClosed naming the endpoint "manager", and has no effect:
the queue is unchanged, so the actor's run over it — its backend
invocations and its broadcasts — is exactly what it would have been
without the failed submission. -/
theorem send_command_closed_is_noop (st : ChannelSt) (command : ManagerCommand)
    (backend : P2pBackend) (h : st.queueOpen = false) :
    WifiP2pChannel.send_command st command =
      (Except.error (P2pError.ChannelClosed managerEndpoint), st) ∧
    run_manager backend (WifiP2pChannel.send_command st command).2.queued =
      run_manager backend st.queued := by
  have h1 : WifiP2pChannel.send_command st command =
      (Except.error (P2pError.ChannelClosed managerEndpoint), st) := by
    simp [WifiP2pChannel.send_command, h]
  exact ⟨h1, by rw [h1]⟩

/-- Witness for C9 at the concrete closed channel state. -/
theorem send_command_closed_is_noop_witness :
    closedStChannel.queueOpen = false ∧
    (WifiP2pChannel.send_command closedStChannel (ManagerCommand.CreateGroup 0) =
      (Except.error (P2pError.ChannelClosed managerEndpoint), closedStChannel) ∧
     run_manager okBackend
        (WifiP2pChannel.send_command closedStChannel (ManagerCommand.CreateGroup 0)).2.queued =
       run_manager okBackend closedStChannel.queued) :=
  ⟨rfl, send_command_closed_is_noop closedStChannel (ManagerCommand.CreateGroup 0)
    okBackend rfl⟩

/-- C10: each `initialize` call yields an instance with a fresh queue and
a fresh topic over the one shared backend; a command submitted to one
instance is executed by that instance's actor only and its events appear
only on that instance's topic, never on the topic or queue of an
instance from a different `initialize` call. -/
theorem fresh_instances_share_backend_and_are_isolated (mgr : WifiP2pManager)
    (f1 f2 : Nat) (commands : List ManagerCommand) (h : f1 ≠ f2) :
    (makeChannel mgr f1).backend = mgr.backend ∧
    (makeChannel mgr f2).backend = mgr.backend ∧
    (makeChannel mgr f1).queueId ≠ (makeChannel mgr f2).queueId ∧
    (makeChannel mgr f1).topicId ≠ (makeChannel mgr f2).topicId ∧
    publishedOn (makeChannel mgr f1) commands (makeChannel mgr f1).topicId =
      eventsOf (run_manager mgr.backend commands) ∧
    publishedOn (makeChannel mgr f1) commands (makeChannel mgr f2).topicId = [] ∧
    executedOn (makeChannel mgr f1) commands (makeChannel mgr f1).queueId =
      invocationsOf (run_manager mgr.backend commands) ∧
    executedOn (makeChannel mgr f1) commands (makeChannel mgr f2).queueId = [] := by
  simp [makeChannel, publishedOn, executedOn, h]

/-- Witness for C10 at the always-succeeding manager, fresh ids 0 and 1
and a single Discover command. -/
theorem fresh_instances_share_backend_and_are_isolated_witness :
    (0 : Nat) ≠ 1 ∧
    ((makeChannel okManager 0).backend = okManager.backend ∧
     (makeChannel okManager 1).backend = okManager.backend ∧
     (makeChannel okManager 0).queueId ≠ (makeChannel okManager 1).queueId ∧
     (makeChannel okManager 0).topicId ≠ (makeChannel okManager 1).topicId ∧
     publishedOn (makeChannel okManager 0) [ManagerCommand.Discover 0]
        (makeChannel okManager 0).topicId =
       eventsOf (run_manager okManager.backend [ManagerCommand.Discover 0]) ∧
     publishedOn (makeChannel okManager 0) [ManagerCommand.Discover 0]
        (makeChannel okManager 1).topicId = [] ∧
     executedOn (makeChannel okManager 0) [ManagerCommand.Discover 0]
        (makeChannel okManager 0).queueId =
       invocationsOf (run_manager okManager.backend [ManagerCommand.Discover 0]) ∧
     executedOn (makeChannel okManager 0) [ManagerCommand.Discover 0]
        (makeChannel okManager 1).queueId = []) :=
  ⟨by decide,
   fresh_instances_share_backend_and_are_isolated okManager 0 1
     [ManagerCommand.Discover 0] (by decide)⟩

end WifiP2p
